import Mathlib

/-!
Verification of `crypto_indicators.py`: a three-stage pipeline
(fetch → transform → serialize) over OHLCV candle data.

Embedding conventions:
- Python floats are modelled as exact rationals (`ℚ`); millisecond
  timestamps as `ℕ`.
- Each candle dict `{timestamp, open, high, low, close, volume}` is the
  structure `Candle` (the Python key `open` is a Lean keyword, so the
  field is named `open_`).
- Fallible index accesses and divisions are mirrored by `_checked`
  variants returning `Option`, used to state safety/totality.
-/

/-- A decoded OHLCV candle, as built in `fetch_ohlcv` (lines 86-95). -/
structure Candle where
  timestamp : ℕ
  open_ : ℚ
  high : ℚ
  low : ℚ
  close : ℚ
  volume : ℚ
  deriving DecidableEq, Inhabited

/-- `compute_sma(data, window)` (lines 101-124): for each index `i`, if
`i < window - 1` the close at `i` itself, otherwise the mean of the closes
over `range(i - window + 1, i + 1)`.  In the second branch `i ≥ window - 1`
and `window ≥ 1`, so Python's start index `i - window + 1` equals the
truncated-subtraction expression `i + 1 - window` used here;
`List.range' a n` mirrors Python's `range(a, a + n)`. -/
def compute_sma (data : List Candle) (window : ℕ) : List ℚ :=
  (List.range data.length).map (fun i =>
    if i < window - 1 then
      (data.getD i default).close
    else
      (((List.range' (i + 1 - window) window).map
          (fun j => (data.getD j default).close)).sum) / (window : ℚ))

/-- `compute_pct_change(data)` (lines 127-147): `0` for fewer than two
candles or a zero first close, else `((last - first) / first) * 100`.
Python's `data[-1]` is the element at index `len(data) - 1`; the local
variables `first_close` and `last_close` of the source are inlined. -/
def compute_pct_change (data : List Candle) : ℚ :=
  if data.length < 2 then 0
  else if (data.getD 0 default).close = 0 then 0
  else (((data.getD (data.length - 1) default).close -
      (data.getD 0 default).close) / (data.getD 0 default).close) * 100

/-- Division that fails on a zero divisor, as Python's `/` does. -/
def div_checked (a b : ℚ) : Option ℚ :=
  if b = 0 then none else some (a / b)

/-- `compute_sma` with every list access through `Option` and the division
guarded by `div_checked`, mirroring where the Python code could raise
(`data[j]` out of range, `/ window` with `window = 0`). -/
def compute_sma_checked (data : List Candle) (window : ℕ) : Option (List ℚ) :=
  (List.range data.length).mapM (fun i =>
    if i < window - 1 then
      (data.get? i).map (·.close)
    else
      ((List.range' (i + 1 - window) window).mapM
          (fun j => (data.get? j).map (·.close))).bind
        (fun closes => div_checked closes.sum (window : ℚ)))

/-- `compute_pct_change` with the accesses `data[0]`, `data[-1]` through
`Option` and the division guarded by `div_checked`. -/
def compute_pct_change_checked (data : List Candle) : Option ℚ :=
  if data.length < 2 then some 0
  else
    ((data.get? 0).map (·.close)).bind (fun first_close =>
      ((data.get? (data.length - 1)).map (·.close)).bind (fun last_close =>
        if first_close = 0 then some 0
        else (div_checked (last_close - first_close) first_close).map (· * 100)))

/-- A candle with a given timestamp and close price and zeros elsewhere,
used as concrete test data. -/
def mkCandle (t : ℕ) (c : ℚ) : Candle :=
  { timestamp := t, open_ := 0, high := 0, low := 0, close := c, volume := 0 }

section Helpers

/-- Indexing into the image of `List.range` under `f`. -/
theorem getD_range_map {β : Type} (f : ℕ → β) (d : β) (n i : ℕ) (h : i < n) :
    (((List.range n).map f).getD i d) = f i := by
  rw [List.getD_eq_getD_get?, List.get?_eq_getElem?, List.getElem?_map,
    List.getElem?_range h]
  rfl

/-- Summing `f` over `List.range' a n` is the sum over `Finset.Ico a (a+n)`. -/
theorem range'_map_sum (f : ℕ → ℚ) (a n : ℕ) :
    ((List.range' a n).map f).sum = ∑ j in Finset.Ico a (a + n), f j := by
  induction n generalizing a with
  | zero => simp
  | succ n ih =>
      rw [List.range'_succ, List.map_cons, List.sum_cons, ih (a + 1),
        show a + 1 + n = a + (n + 1) from by omega,
        Finset.sum_eq_sum_Ico_succ_bot (by omega : a < a + (n + 1))]

/-- If `f` is `some ∘ g` on every element of `l`, then `l.mapM f` succeeds
with `l.map g`. -/
theorem mapM_eq_some_map {α β : Type} (f : α → Option β) (g : α → β)
    (l : List α) (h : ∀ x ∈ l, f x = some (g x)) :
    l.mapM f = some (l.map g) := by
  induction l with
  | nil => rfl
  | cons x xs ih =>
      rw [List.mapM_cons, h x (List.mem_cons_self x xs),
        ih (fun y hy => h y (List.mem_cons_of_mem x hy))]
      rfl

/-- Reading `close` through `get?` succeeds below the length and agrees
with the defaulted read. -/
theorem get?_map_close (l : List Candle) (i : ℕ) (h : i < l.length) :
    (l.get? i).map (·.close) = some ((l.getD i default).close) := by
  rw [List.getD_eq_getD_get?, List.get?_eq_getElem?, List.getElem?_eq_getElem h]
  rfl

end Helpers

/-- The fixed eight-entry symbol map of `fetch_ohlcv` (lines 30-39). -/
def symbol_map : List (String × String) :=
  [("bitcoin", "BTCUSDT"), ("ethereum", "ETHUSDT"), ("cardano", "ADAUSDT"),
   ("solana", "SOLUSDT"), ("dogecoin", "DOGEUSDT"), ("litecoin", "LTCUSDT"),
   ("chainlink", "LINKUSDT"), ("polkadot", "DOTUSDT")]

/-- Python's `str.lower()`, character by character (all strings involved
are ASCII). -/
def str_lower (s : String) : String :=
  String.mk (s.data.map Char.toLower)

/-- Python's `str.upper()`, character by character (all strings involved
are ASCII). -/
def str_upper (s : String) : String :=
  String.mk (s.data.map Char.toUpper)

/-- Python's `str.endswith(t)` as a suffix test on the character lists. -/
def str_endswith (s t : String) : Bool :=
  List.isSuffixOf t.data s.data

/-- Symbol resolution in `fetch_ohlcv` (lines 42-46):
`symbol_map.get(symbol.lower(), symbol.upper())`, then re-lookup when the
result lacks the `USDT` suffix but the lowered symbol is mapped, else
append `USDT` when the suffix is missing.  Python's `key in symbol_map` is
`isSome` of the lookup, and the guarded `symbol_map[key]` access is the
defaulted lookup. -/
def resolve (symbol : String) : String :=
  let looked := symbol_map.lookup (str_lower symbol)
  let trading_pair := looked.getD (str_upper symbol)
  if !str_endswith trading_pair "USDT" && looked.isSome then
    looked.getD trading_pair
  else if !str_endswith trading_pair "USDT" then
    trading_pair ++ "USDT"
  else trading_pair

/-- Outcome of the post-fetch candle-count checks: either a fatal error of
a given kind with a process exit code, or proceed (with or without a
warning having been printed). -/
inductive FetchCheck where
  | fatal (kind : String) (exitCode : ℕ)
  | proceed (warned : Bool)
  deriving DecidableEq

/-- The candle-count validation of `fetch_ohlcv` (lines 65-67 and 77-81):
an empty result is `sys.exit(1)` with the no-data message; fewer than 60
candles prints a warning, and within that, fewer than 10 is `sys.exit(1)`
with the insufficient-data message. -/
def validate_fetch_count (n : ℕ) : FetchCheck :=
  if n = 0 then .fatal "no-data" 1
  else if n < 60 then
    if n < 10 then .fatal "insufficient-data" 1
    else .proceed true
  else .proceed false

/-- A raw kline record from the provider response: `openTimeMs` is
positional field 0 (open time in milliseconds) and `fields` holds the
numeric values parsed from positions 1, 2, 3, ... (open, high, low,
close, volume, then any extra trailing fields).  The decimal strings of
the response are modelled by their parsed rational values. -/
structure Kline where
  openTimeMs : ℕ
  fields : List ℚ
  deriving DecidableEq, Inhabited

/-- Decoding of one kline (lines 88-95).  `int(kline[0] / 1000)` truncates
the millisecond open time to whole seconds, which on natural numbers is
the integer division `/ 1000`. -/
def decode_kline (k : Kline) : Candle :=
  { timestamp := k.openTimeMs / 1000
    open_ := k.fields.getD 0 0
    high := k.fields.getD 1 0
    low := k.fields.getD 2 0
    close := k.fields.getD 3 0
    volume := k.fields.getD 4 0 }

/-- The decoding loop of `fetch_ohlcv` (lines 84-96): appends the decoded
candles in response order. -/
def decode_klines (raw : List Kline) : List Candle :=
  raw.map decode_kline

/-- Decimal digit characters of `n`, most significant first. -/
def natDigits (n : ℕ) : List Char :=
  if _ : n < 10 then [Nat.digitChar n]
  else natDigits (n / 10) ++ [Nat.digitChar (n % 10)]
termination_by n
decreasing_by simp_wf; omega

/-- The decimal numeral of a natural number, as Python prints an `int`. -/
def natStr (n : ℕ) : String :=
  String.mk (natDigits n)

/-- The value of `q` in hundredths rounded to the nearest integer (as
`⌊q * 100 + 1/2⌋` on the reduced fraction).  This models the scale-2
rounding of Python's `f"{x:.2f}"`; the tie direction on the underlying
binary float is below the structural level the claims are about. -/
def hundredths (q : ℚ) : ℤ :=
  Int.fdiv (q * 100 + 1 / 2).num ((q * 100 + 1 / 2).den : ℤ)

/-- Python's `f"{x:.2f}"`: optional minus sign, decimal integer part, a
point, and exactly two fractional digits; never scientific notation. -/
def fmt2 (q : ℚ) : String :=
  (if hundredths q < 0 then "-" else "") ++
    natStr ((hundredths q).natAbs / 100) ++ "." ++
    String.mk [Nat.digitChar ((hundredths q).natAbs % 100 / 10),
      Nat.digitChar ((hundredths q).natAbs % 10)]

/-- `s` is a fixed-point numeral with exactly two digits after the
decimal point: a single point, preceded by point-free text and followed
by exactly two digit characters. -/
def twoDecimals (s : String) : Prop :=
  ∃ (p : String) (c₁ c₂ : Char),
    s = p ++ "." ++ String.mk [c₁, c₂] ∧ c₁.isDigit ∧ c₂.isDigit ∧
      '.' ∉ p.data

/-- The header row of `write_csv` (line 160), joined from `fieldnames`. -/
def csv_header : String :=
  "timestamp,open,high,low,close,volume,sma_10,pct_change"

/-- The fields of one output row (lines 167-177): the timestamp as a
plain integer, the five OHLCV fields formatted to two decimals, the SMA
formatted to two decimals when `i` is inside `sma_list` and blank
otherwise, and the shared `pct` formatted to two decimals. -/
def csv_row_fields (c : Candle) (i : ℕ) (sma_list : List ℚ) (pct : ℚ) :
    List String :=
  [natStr c.timestamp, fmt2 c.open_, fmt2 c.high, fmt2 c.low, fmt2 c.close,
   fmt2 c.volume,
   if i < sma_list.length then fmt2 (sma_list.getD i 0) else "",
   fmt2 pct]

/-- `write_csv` (lines 150-184), as the list of lines of the artifact:
the header, then one comma-joined row per candle in order. -/
def write_csv (data : List Candle) (sma_list : List ℚ) (pct : ℚ) :
    List String :=
  csv_header ::
    (List.range data.length).map (fun i =>
      String.intercalate ","
        (csv_row_fields (data.getD i default) i sma_list pct))

/-- Every digit character of `Nat.digitChar` below ten is a digit. -/
theorem digitChar_isDigit : ∀ k, k < 10 → (Nat.digitChar k).isDigit = true := by
  decide

/-- Every character of a decimal numeral is a digit. -/
theorem natDigits_isDigit (n : ℕ) : ∀ c ∈ natDigits n, c.isDigit := by
  induction n using Nat.strong_induction_on with
  | _ n ih =>
    intro c hc
    unfold natDigits at hc
    by_cases h : n < 10
    · rw [dif_pos h] at hc
      simp only [List.mem_singleton] at hc
      subst hc
      exact digitChar_isDigit n h
    · rw [dif_neg h] at hc
      rcases List.mem_append.mp hc with h1 | h2
      · exact ih (n / 10) (Nat.div_lt_self (by omega) (by omega)) c h1
      · simp only [List.mem_singleton] at h2
        subst h2
        exact digitChar_isDigit _ (Nat.mod_lt n (by omega))

/-- The sign-and-integer-part prefix of `fmt2` contains no point. -/
theorem not_dot_mem_sign_digits (b : Bool) (k : ℕ) :
    '.' ∉ ((if b then "-" else "") ++ natStr k).data := by
  intro hmem
  rw [String.data_append] at hmem
  rcases List.mem_append.mp hmem with h1 | h2
  · cases b <;> simp at h1
  · have hd := natDigits_isDigit k '.' h2
    simp [Char.isDigit] at hd

/-- `fmt2` always renders with exactly two digits after the point. -/
theorem fmt2_twoDecimals (q : ℚ) : twoDecimals (fmt2 q) := by
  refine ⟨(if hundredths q < 0 then "-" else "") ++
      natStr ((hundredths q).natAbs / 100),
    Nat.digitChar ((hundredths q).natAbs % 100 / 10),
    Nat.digitChar ((hundredths q).natAbs % 10), ?_,
    digitChar_isDigit _ (by omega), digitChar_isDigit _ (by omega), ?_⟩
  · rfl
  · have hb := not_dot_mem_sign_digits (decide (hundredths q < 0))
      ((hundredths q).natAbs / 100)
    by_cases h : hundredths q < 0 <;> simpa [h] using hb

/-- Indexing a decoded series reads the kline at the same position. -/
theorem getD_decode_klines (raw : List Kline) (i : ℕ) (h : i < raw.length) :
    (decode_klines raw).getD i default = decode_kline (raw.getD i default) := by
  unfold decode_klines
  rw [List.getD_eq_getD_get?, List.getD_eq_getD_get?, List.get?_eq_getElem?,
    List.get?_eq_getElem?, List.getElem?_map, List.getElem?_eq_getElem h]
  rfl

/-- C1: for every series and every window `w ≥ 1`, `compute_sma` returns a
list of the series' length whose entry at `i` is the close at `i` when
`i < w - 1`, and the arithmetic mean of the closes at positions
`i - w + 1 .. i` (inclusive) when `i ≥ w - 1`. -/
theorem compute_sma_spec (data : List Candle) (w : ℕ) (hw : 1 ≤ w) :
    (compute_sma data w).length = data.length ∧
    (∀ i, i < data.length → i < w - 1 →
      (compute_sma data w).getD i 0 = (data.getD i default).close) ∧
    (∀ i, i < data.length → w - 1 ≤ i →
      (compute_sma data w).getD i 0 =
        (∑ j in Finset.Icc (i + 1 - w) i, (data.getD j default).close) / (w : ℚ)) := by
  refine ⟨by simp [compute_sma], ?_, ?_⟩
  · intro i hi hlt
    rw [compute_sma, getD_range_map _ _ _ _ hi, if_pos hlt]
  · intro i hi hge
    rw [compute_sma, getD_range_map _ _ _ _ hi, if_neg (by omega),
      range'_map_sum]
    have hup : i + 1 - w + w = i + 1 := by omega
    rw [hup, ← Nat.Ico_succ_right]

/-- Witness for C1 at a concrete three-candle series and window 2:
position 2 is a genuine window mean. -/
theorem compute_sma_spec_witness :
    (compute_sma [mkCandle 0 4, mkCandle 1 6, mkCandle 2 10] 2).getD 2 0 =
      (∑ j in Finset.Icc 1 2,
        (([mkCandle 0 4, mkCandle 1 6, mkCandle 2 10] : List Candle).getD j
          default).close) / (2 : ℚ) :=
  (compute_sma_spec _ 2 (by decide)).2.2 2 (by decide) (by decide)

/-- C2: `compute_pct_change` is `0` for series of length `0` or `1` and for
series whose first close is `0`; otherwise it is
`((close[last] - close[first]) / close[first]) * 100`. -/
theorem compute_pct_change_spec (data : List Candle) :
    (data.length < 2 → compute_pct_change data = 0) ∧
    (2 ≤ data.length → (data.getD 0 default).close = 0 →
      compute_pct_change data = 0) ∧
    (2 ≤ data.length → (data.getD 0 default).close ≠ 0 →
      compute_pct_change data =
        (((data.getD (data.length - 1) default).close -
            (data.getD 0 default).close) /
          (data.getD 0 default).close) * 100) := by
  unfold compute_pct_change
  refine ⟨fun h => by rw [if_pos h], fun h2 h0 => ?_, fun h2 h0 => ?_⟩
  · rw [if_neg (by omega : ¬ data.length < 2), if_pos h0]
  · rw [if_neg (by omega : ¬ data.length < 2), if_neg h0]

/-- Witness for C2: a two-candle series with closes 100 then 150 yields
`50`, and closes 200 then 100 yield `-50`. -/
theorem compute_pct_change_spec_witness :
    compute_pct_change [mkCandle 0 100, mkCandle 1 150] = 50 ∧
    compute_pct_change [mkCandle 0 200, mkCandle 1 100] = -50 := by
  constructor
  · have h := (compute_pct_change_spec [mkCandle 0 100, mkCandle 1 150]).2.2
      (by decide) (by decide)
    rw [h]; norm_num [mkCandle]
  · have h := (compute_pct_change_spec [mkCandle 0 200, mkCandle 1 100]).2.2
      (by decide) (by decide)
    rw [h]; norm_num [mkCandle]

/-- C10: `compute_pct_change` depends only on the first and last close
prices: two series of length at least 2 agreeing there get the same value,
whatever their lengths, interiors or other fields. -/
theorem pct_change_first_last_only (s t : List Candle)
    (hs : 2 ≤ s.length) (ht : 2 ≤ t.length)
    (hf : (s.getD 0 default).close = (t.getD 0 default).close)
    (hl : (s.getD (s.length - 1) default).close =
      (t.getD (t.length - 1) default).close) :
    compute_pct_change s = compute_pct_change t := by
  simp only [compute_pct_change, if_neg (by omega : ¬ s.length < 2),
    if_neg (by omega : ¬ t.length < 2), hf, hl]

/-- C9: `compute_sma` (for any window `w ≥ 1`) and `compute_pct_change`
are total on every series, the empty one included: the `_checked`
variants, which fail on any out-of-bounds access or zero divisor the
Python code could hit, always succeed and return the plain results. -/
theorem indicators_total (data : List Candle) (w : ℕ) (hw : 1 ≤ w) :
    compute_sma_checked data w = some (compute_sma data w) ∧
    compute_pct_change_checked data = some (compute_pct_change data) := by
  constructor
  · unfold compute_sma_checked compute_sma
    apply mapM_eq_some_map
    intro i hi
    rw [List.mem_range] at hi
    by_cases hlt : i < w - 1
    · rw [if_pos hlt, if_pos hlt, get?_map_close data i hi]
    · rw [if_neg hlt, if_neg hlt,
        mapM_eq_some_map _ (fun j => (data.getD j default).close) _
          (fun j hj => get?_map_close data j (by
            rw [List.mem_range'_1] at hj
            omega))]
      simp only [Option.some_bind, div_checked]
      rw [if_neg (Nat.cast_ne_zero.mpr (by omega : w ≠ 0))]
  · unfold compute_pct_change_checked compute_pct_change
    by_cases h2 : data.length < 2
    · rw [if_pos h2, if_pos h2]
    · rw [if_neg h2, if_neg h2, get?_map_close data 0 (by omega),
        get?_map_close data (data.length - 1) (by omega)]
      simp only [Option.some_bind]
      by_cases h0 : (data.getD 0 default).close = 0
      · rw [if_pos h0, if_pos h0]
      · rw [if_neg h0, if_neg h0]
        simp only [div_checked, if_neg h0, Option.map_some']

/-- Witness for C9: the empty series with the default window 10. -/
theorem indicators_total_witness :
    compute_sma_checked [] 10 = some (compute_sma [] 10) ∧
    compute_pct_change_checked [] = some (compute_pct_change []) :=
  indicators_total [] 10 (by decide)

/-- Witness for C10: a two-candle series and a four-candle series with
different timestamps and interior closes but equal endpoint closes. -/
theorem pct_change_first_last_only_witness :
    compute_pct_change [mkCandle 0 100, mkCandle 1 150] =
      compute_pct_change
        [mkCandle 5 100, mkCandle 6 7, mkCandle 7 9, mkCandle 8 150] :=
  pct_change_first_last_only _ _ (by decide) (by decide) (by decide) (by decide)

/-- C4: whenever the lower-cased input is a key of `symbol_map`, `resolve`
returns the mapped trading pair verbatim, whatever the suffix logic would
have done. -/
theorem resolve_mapped (s p : String)
    (h : symbol_map.lookup (str_lower s) = some p) : resolve s = p := by
  cases hp : str_endswith p "USDT" <;> simp [resolve, h, hp]

/-- Witness for C4: resolving "bitcoin" yields "BTCUSDT". -/
theorem resolve_mapped_witness : resolve "bitcoin" = "BTCUSDT" :=
  resolve_mapped "bitcoin" "BTCUSDT" (by decide)

/-- C5: whenever the lower-cased input is not a key of `symbol_map`,
`resolve` returns the upper-cased input unchanged if it already ends with
"USDT", and the upper-cased input with "USDT" appended otherwise. -/
theorem resolve_unmapped (s : String)
    (h : symbol_map.lookup (str_lower s) = none) :
    resolve s =
      if str_endswith (str_upper s) "USDT" then str_upper s
      else str_upper s ++ "USDT" := by
  cases hp : str_endswith (str_upper s) "USDT" <;> simp [resolve, h, hp]

/-- Witness for C5: resolving "XRP" yields "XRPUSDT" and resolving
"ethusdt" yields "ETHUSDT". -/
theorem resolve_unmapped_witness :
    resolve "XRP" = "XRPUSDT" ∧ resolve "ethusdt" = "ETHUSDT" := by
  constructor
  · have h := resolve_unmapped "XRP" (by decide)
    rw [h]; decide
  · have h := resolve_unmapped "ethusdt" (by decide)
    rw [h]; decide

/-- C3: the fetch stage is a partial function of the candle count: 0
candles is a fatal no-data error, 1-9 candles a fatal insufficient-data
error (both exiting non-zero), 10-59 candles proceed with a warning, and
60 or more proceed silently. -/
theorem fetch_count_policy (n : ℕ) :
    (n = 0 → validate_fetch_count n = .fatal "no-data" 1) ∧
    (1 ≤ n → n < 10 → validate_fetch_count n = .fatal "insufficient-data" 1) ∧
    (10 ≤ n → n < 60 → validate_fetch_count n = .proceed true) ∧
    (60 ≤ n → validate_fetch_count n = .proceed false) ∧
    (∀ k e, validate_fetch_count n = .fatal k e → e ≠ 0) := by
  unfold validate_fetch_count
  refine ⟨fun h => by rw [if_pos h], fun h1 h2 => ?_, fun h1 h2 => ?_,
    fun h => ?_, ?_⟩
  · rw [if_neg (by omega), if_pos (by omega), if_pos h2]
  · rw [if_neg (by omega), if_pos h2, if_neg (by omega)]
  · rw [if_neg (by omega), if_neg (by omega)]
  · intro k e he
    split_ifs at he <;> (injection he with h1 h2; omega)

/-- Witness for C3: a five-candle response is a fatal insufficient-data
error with exit code 1. -/
theorem fetch_count_policy_witness :
    validate_fetch_count 5 = .fatal "insufficient-data" 1 :=
  (fetch_count_policy 5).2.1 (by decide) (by decide)

/-- C6: decoding preserves length and order; the candle at position `i`
comes from the kline at position `i`, with timestamp the millisecond open
time integer-divided by 1000, the OHLCV fields from positions 1-5, and
any trailing fields beyond position 5 ignored. -/
theorem decode_spec (raw : List Kline) (i : ℕ) (h : i < raw.length) :
    (decode_klines raw).length = raw.length ∧
    (decode_klines raw).getD i default = decode_kline (raw.getD i default) ∧
    (decode_kline (raw.getD i default)).timestamp =
      (raw.getD i default).openTimeMs / 1000 ∧
    (decode_kline (raw.getD i default)).open_ =
      (raw.getD i default).fields.getD 0 0 ∧
    (decode_kline (raw.getD i default)).high =
      (raw.getD i default).fields.getD 1 0 ∧
    (decode_kline (raw.getD i default)).low =
      (raw.getD i default).fields.getD 2 0 ∧
    (decode_kline (raw.getD i default)).close =
      (raw.getD i default).fields.getD 3 0 ∧
    (decode_kline (raw.getD i default)).volume =
      (raw.getD i default).fields.getD 4 0 ∧
    (∀ front extra : List ℚ, front.length = 5 →
      decode_kline ⟨(raw.getD i default).openTimeMs, front ++ extra⟩ =
        decode_kline ⟨(raw.getD i default).openTimeMs, front⟩) := by
  refine ⟨by simp [decode_klines], getD_decode_klines raw i h,
    rfl, rfl, rfl, rfl, rfl, rfl, ?_⟩
  intro front extra hf
  have g : ∀ j, j < 5 → (front ++ extra).getD j 0 = front.getD j 0 := by
    intro j hj
    rw [List.getD_eq_getD_get?, List.getD_eq_getD_get?, List.get?_eq_getElem?,
      List.get?_eq_getElem?, List.getElem?_append_left (by omega)]
  unfold decode_kline
  rw [g 0 (by omega), g 1 (by omega), g 2 (by omega), g 3 (by omega),
    g 4 (by omega)]

/-- Witness for C6: a single kline with one trailing field decodes with
truncated timestamp and positional OHLCV fields. -/
theorem decode_spec_witness :
    (decode_klines [⟨1999, [1, 2, 3, 4, 5, 99]⟩]).getD 0 default =
      decode_kline (([⟨1999, [1, 2, 3, 4, 5, 99]⟩] : List Kline).getD 0 default) ∧
    (decode_kline (([⟨1999, [1, 2, 3, 4, 5, 99]⟩] : List Kline).getD 0
        default)).timestamp =
      (([⟨1999, [1, 2, 3, 4, 5, 99]⟩] : List Kline).getD 0 default).openTimeMs /
        1000 := by
  have hd := decode_spec [⟨1999, [1, 2, 3, 4, 5, 99]⟩] 0 (by decide)
  exact ⟨hd.2.1, hd.2.2.1⟩

/-- C7: for a series of `n` candles with an SMA sequence of the same
length, the artifact is the header line followed by one comma-joined row
per candle (`n + 1` lines); each row starts with the timestamp as a plain
digits-only integer, every formatted decimal field has exactly two digits
after the decimal point, and the pct_change field is `fmt2 pct` on every
row. -/
theorem write_csv_spec (data : List Candle) (sma_list : List ℚ) (pct : ℚ)
    (hsma : sma_list.length = data.length) :
    (write_csv data sma_list pct).length = data.length + 1 ∧
    (write_csv data sma_list pct).getD 0 "" = csv_header ∧
    (∀ q, twoDecimals (fmt2 q)) ∧
    (∀ n, ∀ c ∈ (natStr n).data, c.isDigit) ∧
    (∀ i, i < data.length →
      (write_csv data sma_list pct).getD (i + 1) "" =
        String.intercalate ","
          [natStr (data.getD i default).timestamp,
           fmt2 (data.getD i default).open_,
           fmt2 (data.getD i default).high,
           fmt2 (data.getD i default).low,
           fmt2 (data.getD i default).close,
           fmt2 (data.getD i default).volume,
           fmt2 (sma_list.getD i 0),
           fmt2 pct]) := by
  refine ⟨by simp [write_csv], rfl, fmt2_twoDecimals, natDigits_isDigit, ?_⟩
  intro i hi
  unfold write_csv
  rw [List.getD_cons_succ, getD_range_map _ _ _ _ hi]
  unfold csv_row_fields
  rw [if_pos (by omega : i < sma_list.length)]

/-- Witness for C7: a one-candle series with a matching one-entry SMA. -/
theorem write_csv_spec_witness :
    (write_csv [mkCandle 3 1] [1] 0).length =
      ([mkCandle 3 1] : List Candle).length + 1 ∧
    (write_csv [mkCandle 3 1] [1] 0).getD 1 "" =
      String.intercalate ","
        [natStr (([mkCandle 3 1] : List Candle).getD 0 default).timestamp,
         fmt2 (([mkCandle 3 1] : List Candle).getD 0 default).open_,
         fmt2 (([mkCandle 3 1] : List Candle).getD 0 default).high,
         fmt2 (([mkCandle 3 1] : List Candle).getD 0 default).low,
         fmt2 (([mkCandle 3 1] : List Candle).getD 0 default).close,
         fmt2 (([mkCandle 3 1] : List Candle).getD 0 default).volume,
         fmt2 (([1] : List ℚ).getD 0 0),
         fmt2 0] := by
  have h := write_csv_spec [mkCandle 3 1] [1] 0 (by decide)
  exact ⟨h.1, h.2.2.2.2 0 (by decide)⟩

/-- C8: when the SMA sequence is shorter than the series, `write_csv`
still produces the full `n + 1`-line artifact, and every row at an index
at or beyond the SMA length carries an empty sma_10 field. -/
theorem write_csv_short_sma (data : List Candle) (sma_list : List ℚ)
    (pct : ℚ) (i : ℕ) (hlen : sma_list.length ≤ i) (hi : i < data.length) :
    (write_csv data sma_list pct).length = data.length + 1 ∧
    (write_csv data sma_list pct).getD (i + 1) "" =
      String.intercalate ","
        [natStr (data.getD i default).timestamp,
         fmt2 (data.getD i default).open_,
         fmt2 (data.getD i default).high,
         fmt2 (data.getD i default).low,
         fmt2 (data.getD i default).close,
         fmt2 (data.getD i default).volume,
         "",
         fmt2 pct] := by
  refine ⟨by simp [write_csv], ?_⟩
  unfold write_csv
  rw [List.getD_cons_succ, getD_range_map _ _ _ _ hi]
  unfold csv_row_fields
  rw [if_neg (by omega : ¬ i < sma_list.length)]

/-- Witness for C8: a two-candle series with a one-entry SMA; row index 1
gets an empty sma_10 field. -/
theorem write_csv_short_sma_witness :
    (write_csv [mkCandle 0 1, mkCandle 1 2] [4] 0).length =
      ([mkCandle 0 1, mkCandle 1 2] : List Candle).length + 1 ∧
    (write_csv [mkCandle 0 1, mkCandle 1 2] [4] 0).getD 2 "" =
      String.intercalate ","
        [natStr
           (([mkCandle 0 1, mkCandle 1 2] : List Candle).getD 1
             default).timestamp,
         fmt2 (([mkCandle 0 1, mkCandle 1 2] : List Candle).getD 1
           default).open_,
         fmt2 (([mkCandle 0 1, mkCandle 1 2] : List Candle).getD 1
           default).high,
         fmt2 (([mkCandle 0 1, mkCandle 1 2] : List Candle).getD 1
           default).low,
         fmt2 (([mkCandle 0 1, mkCandle 1 2] : List Candle).getD 1
           default).close,
         fmt2 (([mkCandle 0 1, mkCandle 1 2] : List Candle).getD 1
           default).volume,
         "",
         fmt2 0] :=
  write_csv_short_sma [mkCandle 0 1, mkCandle 1 2] [4] 0 1 (by decide)
    (by decide)
